import Mathlib

/-!
Verification of the session store, controller, model-response decomposition,
attachment ingestion and math-aware renderer of the SIGMA MATH chat client.
Each definition is a shallow embedding of the corresponding source function;
machine timestamps (epoch milliseconds) are modelled as natural numbers and
JS strings as Lean strings (lists of characters for the scanners).
-/

/-- Message role, from `types.ts`. -/
inductive Role where
  | user
  | assistant
  | system
deriving DecidableEq

/-- `Attachment` from `types.ts`: `name`, MIME `type`, base64 data-URL `data`. -/
structure Attachment where
  name : String
  type : String
  data : String
deriving DecidableEq

/-- `Message` from `types.ts`. Optional fields are `Option`s, `timestamp` is epoch ms. -/
structure Message where
  id : String
  role : Role
  content : String
  attachments : Option (List Attachment) := none
  thinking : Option String := none
  timestamp : Nat
deriving DecidableEq

/-- `ChatSession` from `types.ts`. -/
structure ChatSession where
  id : String
  title : String
  messages : List Message
  createdAt : Nat
  lastModified : Nat
deriving DecidableEq

/-- Arguments captured by the in-flight `generateMathResponse` call issued by
`sendMessage` in `App` (the awaited remote call): target chat, the stale
history snapshot, and the submitted text/attachments. -/
structure InFlight where
  chatId : String
  history : List Message
  text : String
  attachments : List Attachment
deriving DecidableEq

/-- The controller state of `App`: the `chats` / `currentChatId` /
`inputText` / `attachments` / `isTyping` React state plus the pending
remote call (present exactly while the awaited `generateMathResponse`
promise of a submission is outstanding). -/
structure Ctrl where
  chats : List ChatSession
  currentChatId : Option String
  inputText : String
  attachments : List Attachment
  isTyping : Bool
  pending : Option InFlight
deriving DecidableEq

/-- JS `String.prototype.trim` on a character list (ASCII whitespace). -/
def trimChars (l : List Char) : List Char :=
  ((l.dropWhile Char.isWhitespace).reverse.dropWhile Char.isWhitespace).reverse

/-- `startNewChat` from `App`: prepend a fresh empty session and make it active. -/
def startNewChat (st : Ctrl) (now : Nat) : Ctrl :=
  { st with
    chats := { id := toString now, title := "New Calculation", messages := [],
               createdAt := now, lastModified := now } :: st.chats,
    currentChatId := some (toString now) }

/-- `deleteChat` from `App`: filter the session out; if it was active the new
active id is `remaining[0].id` (head of the filtered list) or null. -/
def deleteChat (st : Ctrl) (id : String) : Ctrl :=
  let chats' := st.chats.filter (fun c => c.id != id)
  if st.currentChatId = some id then
    { st with chats := chats', currentChatId := chats'.head?.map (fun c => c.id) }
  else
    { st with chats := chats' }

/-- One `createSession` / `deleteSession` call of the controller. -/
inductive StoreOp where
  | create (now : Nat)
  | delete (id : String)

/-- Apply one store operation. -/
def applyStoreOp (st : Ctrl) : StoreOp → Ctrl
  | .create now => startNewChat st now
  | .delete id => deleteChat st id

/-- The empty store the process starts from. -/
def initialCtrl : Ctrl :=
  { chats := [], currentChatId := none, inputText := "", attachments := [],
    isTyping := false, pending := none }

/-- Run a sequence of store operations from the empty store. -/
def runStoreOps (ops : List StoreOp) : Ctrl :=
  ops.foldl applyStoreOp initialCtrl

/-- The Store invariant: a non-null `currentChatId` references a live session. -/
def ActiveLive (st : Ctrl) : Prop :=
  ∀ a, st.currentChatId = some a → ∃ c ∈ st.chats, c.id = a

/-- `chats` ordered most-recently-modified first, as maintained in place by the
`chats.sort((a,b) => b.lastModified - a.lastModified)` call in `Sidebar`. -/
def SortedByLastModified (l : List ChatSession) : Prop :=
  l.Pairwise (fun a b => b.lastModified ≤ a.lastModified)

/-- A file handed to `handleFileChange`: name, MIME type, byte size, and the
data-URL the `FileReader` produces for it (`readAsDataURL` is modelled as
reading this field). -/
structure SrcFile where
  name : String
  mime : String
  size : Nat
  dataUrl : String
deriving DecidableEq

/-- The attachment built from an ingested file in `handleFileChange`. -/
def toAttachment (f : SrcFile) : Attachment :=
  { name := f.name, type := f.mime, data := f.dataUrl }

/-- The fixed size bound of `handleFileChange`: `10 * 1024 * 1024` bytes. -/
def maxFileSize : Nat := 10 * 1024 * 1024

/-- The alert text shown for an oversized file. -/
def fileTooLargeText : String := "File too large. Max 10MB per file."

/-- The ingestion loop of `handleFileChange`: oversized files produce an alert
and are skipped (`continue`), the rest become attachments, in order.
Returns the new attachments and the alerts raised. -/
def ingestLoop : List SrcFile → List Attachment × List String
  | [] => ([], [])
  | f :: rest =>
    let (atts, alerts) := ingestLoop rest
    if f.size > maxFileSize then (atts, fileTooLargeText :: alerts)
    else (toAttachment f :: atts, alerts)

/-- `handleFileChange` from `App`: no-op when `files` is null, otherwise append
the ingested attachments to the pending-attachment state. The second
component collects the `alert` calls (user-visible warnings). -/
def handleFileChange (st : Ctrl) (files : Option (List SrcFile)) : Ctrl × List String :=
  match files with
  | none => (st, [])
  | some fs =>
    let (newAtts, alerts) := ingestLoop fs
    ({ st with attachments := st.attachments ++ newAtts }, alerts)

/-- The user `Message` built inside `sendMessage`. -/
def mkUserMessage (text : String) (atts : List Attachment) (now : Nat) : Message :=
  { id := toString now, role := .user, content := text,
    attachments := some atts, thinking := none, timestamp := now }

/-- The synchronous prologue of `sendMessage` from `App`, up to and including
issuing the remote `generateMathResponse` call: guard on blank input, guard
on `isTyping`, auto-create a session when none is active (title = first 35
characters of the text, or the fixed fallback when the text is empty),
append the user message with `lastModified := now`, clear the input, set the
typing flag and record the pending call (whose history snapshot is taken
from the stale `chats` closure, before the user-message append). -/
def sendMessage (st : Ctrl) (now : Nat) : Ctrl :=
  if (trimChars st.inputText.toList).isEmpty && st.attachments.isEmpty then st
  else if st.isTyping then st
  else
    let (chats1, activeId) :=
      match st.currentChatId with
      | some cid => (st.chats, cid)
      | none =>
        let sliced := st.inputText.toList.take 35
        let newChat : ChatSession :=
          { id := toString now,
            title := if sliced.isEmpty then "Multimodal Query" else String.mk sliced,
            messages := [], createdAt := now, lastModified := now }
        (newChat :: st.chats, newChat.id)
    let userMessage := mkUserMessage st.inputText st.attachments now
    let chats2 := chats1.map fun c =>
      if c.id == activeId then
        { c with messages := c.messages ++ [userMessage], lastModified := now }
      else c
    let history := ((st.chats.find? fun c => c.id == activeId).map
      (fun c => c.messages)).getD []
    { chats := chats2, currentChatId := some activeId, inputText := "",
      attachments := [], isTyping := true,
      pending := some { chatId := activeId, history := history,
                        text := st.inputText, attachments := st.attachments } }

/-- The fixed fallback error message appended on orchestration failure. -/
def errorFallbackText : String :=
  "I encountered an error processing your mathematical query. Please ensure your expression is valid and try again."

/-- The success continuation of `sendMessage`: append the assistant message
(with the response text and thinking), retitle a still-empty chat from the
original input, bump `lastModified`, and clear the typing flag. -/
def sendMessageSuccess (st : Ctrl) (respText respThinking : String) (now : Nat) : Ctrl :=
  match st.pending with
  | none => st
  | some p =>
    let assistantMessage : Message :=
      { id := toString (now + 1), role := .assistant, content := respText,
        attachments := none, thinking := some respThinking, timestamp := now }
    let chats' := st.chats.map fun c =>
      if c.id == p.chatId then
        { c with messages := c.messages ++ [assistantMessage],
                 title := if c.messages.isEmpty then String.mk (p.text.toList.take 35)
                          else c.title,
                 lastModified := now }
      else c
    { st with chats := chats', isTyping := false, pending := none }

/-- The catch branch of `sendMessage`: append the fixed fallback assistant
message to the target chat — the source updates `messages` only, without
touching `lastModified` — then the finally branch clears the typing flag. -/
def sendMessageFailure (st : Ctrl) (now : Nat) : Ctrl :=
  match st.pending with
  | none => st
  | some p =>
    let errorMessage : Message :=
      { id := toString (now + 1), role := .assistant, content := errorFallbackText,
        attachments := none, thinking := none, timestamp := now }
    let chats' := st.chats.map fun c =>
      if c.id == p.chatId then { c with messages := c.messages ++ [errorMessage] }
      else c
    { st with chats := chats', isTyping := false, pending := none }

/-- One element of `response.candidates[0].content.parts` as probed by
`generateMathResponse`: the optional `text` and `thought` string fields. -/
structure ResponsePart where
  text : Option String := none
  thought : Option String := none
deriving DecidableEq

/-- The remote reply shape probed by `generateMathResponse`: the optional
parts array reached through `candidates?.[0]?.content?.parts`, and the
top-level `response.text` convenience field. -/
structure GenResponse where
  parts : Option (List ResponsePart) := none
  text : Option String := none
deriving DecidableEq

/-- JS truthiness of an optional string field: defined and non-empty. -/
def truthyOpt : Option String → Bool
  | none => false
  | some s => !(s == "")

/-- An apostrophe, spelled via its code point. -/
def apos : String := String.singleton (Char.ofNat 39)

/-- The fixed apology answer of `generateMathResponse` when no usable text is
found anywhere in the reply. -/
def apologyText : String :=
  "I couldn" ++ apos ++ "t generate a solution. Please try again."

/-- The response-decomposition tail of `generateMathResponse` in
`geminiService.ts`: scan the parts for the first with truthy `text` and the
first with truthy `thought` (each falling back to the empty string), then
`text: textPart or response.text or apology`, `thinking: thinkingPart`.
The `thinking` component is always a defined string here. -/
def decomposeResponse (r : GenResponse) : String × Option String :=
  let parts := r.parts.getD []
  let textPart := ((parts.find? fun p => truthyOpt p.text).bind
    (fun p => p.text)).getD ""
  let thinkingPart := ((parts.find? fun p => truthyOpt p.thought).bind
    (fun p => p.thought)).getD ""
  let answer :=
    if textPart != "" then textPart
    else
      match r.text with
      | some t => if t != "" then t else apologyText
      | none => apologyText
  (answer, some thinkingPart)

/-- The math-typesetting backend (`katex.renderToString` with its options):
given the fragment text and the display-mode flag it yields html, or throws
(modelled as `Except.error`). -/
def Oracle : Type := List Char → Bool → Except String (List Char)

/-- The `renderMath` helper of `MathMarkdown`: call the backend inside
try/catch; on error the original raw text is returned. -/
def renderMathE (k : Oracle) (text : List Char) (isBlock : Bool) :
    Except String (List Char) :=
  match k text isBlock with
  | .ok s => .ok s
  | .error _ => .ok text

/-- Split a character list at the first occurrence of two consecutive dollar
signs: `some (before, after)` with the two dollars removed. -/
def splitAtDollarDollar : List Char → Option (List Char × List Char)
  | [] => none
  | '$' :: '$' :: rest => some ([], rest)
  | c :: rest =>
    match splitAtDollarDollar rest with
    | some (a, b) => some (c :: a, b)
    | none => none

/-- The opening of the block-math wrapper emitted by `MathMarkdown`. -/
def divOpenL : List Char := "<div class=\"katex-display-container\">".toList

/-- The closing of the block-math wrapper. -/
def divCloseL : List Char := "</div>".toList

/-- The block-math pass of `MathMarkdown`: the global replace of the lazy
pattern dollar-dollar, whitespace, captured body, whitespace, dollar-dollar
by the rendered display-math wrapper. On an unmatched opening delimiter the
regex engine advances one character, which the scanner mirrors. `fuel`
bounds the recursion; one unit is spent per step and every step strictly
shrinks the input, so any `fuel` at least the input length is exact. -/
def blockPassE (k : Oracle) (fuel : Nat) (l : List Char) :
    Except String (List Char) :=
  match fuel, l with
  | 0, l => .ok l
  | _ + 1, [] => .ok []
  | fuel + 1, '$' :: '$' :: rest =>
    match splitAtDollarDollar rest with
    | some (inner, rest') => do
      let r ← renderMathE k (trimChars inner) true
      let tail ← blockPassE k fuel rest'
      pure (divOpenL ++ r ++ divCloseL ++ tail)
    | none => do
      let tail ← blockPassE k fuel ('$' :: rest)
      pure ('$' :: tail)
  | fuel + 1, c :: rest => do
    let tail ← blockPassE k fuel rest
    pure (c :: tail)

/-- Scan for the closing delimiter of inline math: the first dollar sign,
failing on a newline or the end of input; returns the body and the rest. -/
def splitInline : List Char → Option (List Char × List Char)
  | [] => none
  | '\n' :: _ => none
  | '$' :: rest => some ([], rest)
  | c :: rest =>
    match splitInline rest with
    | some (a, b) => some (c :: a, b)
    | none => none

/-- The inline-math pass of `MathMarkdown`: the global replace of the lazy
pattern dollar, one or more characters excluding dollar and newline,
dollar by the rendered inline html. An empty body (two adjacent dollars)
or a missing closer leaves the dollar literal and the scan advances one
character, as the regex engine does. -/
def inlinePassE (k : Oracle) (fuel : Nat) (l : List Char) :
    Except String (List Char) :=
  match fuel, l with
  | 0, l => .ok l
  | _ + 1, [] => .ok []
  | fuel + 1, '$' :: rest =>
    match splitInline rest with
    | some (inner, rest') =>
      if inner.isEmpty then do
        let tail ← inlinePassE k fuel rest
        pure ('$' :: tail)
      else do
        let r ← renderMathE k inner false
        let tail ← inlinePassE k fuel rest'
        pure (r ++ tail)
    | none => do
      let tail ← inlinePassE k fuel rest
      pure ('$' :: tail)
  | fuel + 1, c :: rest => do
    let tail ← inlinePassE k fuel rest
    pure (c :: tail)

/-- Split at the first occurrence of two consecutive asterisks. -/
def splitAtStarStar : List Char → Option (List Char × List Char)
  | [] => none
  | '*' :: '*' :: rest => some ([], rest)
  | c :: rest =>
    match splitAtStarStar rest with
    | some (a, b) => some (c :: a, b)
    | none => none

/-- The opening strong tag emitted by the bold replacement. -/
def strongOpenL : List Char := "<strong>".toList

/-- The closing strong tag. -/
def strongCloseL : List Char := "</strong>".toList

/-- The per-line bold replacement of `MathMarkdown`: the lazy double-asterisk
pattern becomes a strong element. -/
def boldPass (fuel : Nat) (l : List Char) : List Char :=
  match fuel, l with
  | 0, l => l
  | _ + 1, [] => []
  | fuel + 1, '*' :: '*' :: rest =>
    match splitAtStarStar rest with
    | some (inner, rest') =>
      strongOpenL ++ inner ++ strongCloseL ++ boldPass fuel rest'
    | none => '*' :: boldPass fuel ('*' :: rest)
  | fuel + 1, c :: rest => c :: boldPass fuel rest

/-- JS `split` on the newline character (the empty input yields one empty
line, a trailing newline yields a trailing empty line). -/
def splitOnNl : List Char → List (List Char)
  | [] => [[]]
  | '\n' :: rest => [] :: splitOnNl rest
  | c :: rest =>
    match splitOnNl rest with
    | line :: lines => (c :: line) :: lines
    | [] => [[c]]

/-- Whether a list starts with the two given characters. -/
def startsWithPair (a b : Char) : List Char → Bool
  | x :: y :: _ => x == a && y == b
  | _ => false

/-- The ordered-list test of `MathMarkdown`: one or more digits, a dot and a
space at the start of the trimmed line. -/
def startsOrderedMarker (l : List Char) : Bool :=
  let ds := l.takeWhile Char.isDigit
  let rest := l.dropWhile Char.isDigit
  !ds.isEmpty && startsWithPair '.' ' ' rest

/-- `line.indexOf(' ') + 1` of the source (zero when there is no space,
since JS indexOf yields minus one there). -/
def firstSpaceShift (l : List Char) : Nat :=
  match l.findIdx? (fun c => c == ' ') with
  | some i => i + 1
  | none => 0

/-- One renderable block produced by the line pass of `MathMarkdown`:
unordered / ordered list item, explicit line break, or paragraph, each
carrying its inner html character list. -/
inductive Block where
  | li_ul (html : List Char)
  | li_ol (html : List Char)
  | br
  | para (html : List Char)
deriving DecidableEq

/-- The per-line classification of `MathMarkdown`: bold-replace the line; a
trimmed line starting with an unordered marker becomes an unordered item
(marker stripped from the trimmed bolded line), a trimmed line matching
the ordered pattern becomes an ordered item (stripped after the first
space of the original line), a blank line a break, anything else a
paragraph of the bolded line. -/
def classifyLine (line : List Char) : Block :=
  if startsWithPair '*' ' ' (trimChars line) || startsWithPair '-' ' ' (trimChars line) then
    .li_ul ((trimChars (boldPass line.length line)).drop 2)
  else if startsOrderedMarker (trimChars line) then
    .li_ol ((trimChars (boldPass line.length line)).drop (firstSpaceShift line))
  else if (trimChars line).isEmpty then .br
  else .para (boldPass line.length line)

/-- The three-pass body of `MathMarkdown` (block math, inline math, then the
line-oriented pass), in an exception monad in which an uncaught throw of
the typesetting backend would surface as an error. -/
def renderBlocksE (k : Oracle) (content : String) : Except String (List Block) := do
  let l := content.toList
  let p1 ← blockPassE k l.length l
  let p2 ← inlinePassE k p1.length p1
  pure ((splitOnNl p2).map classifyLine)

/-- The overall result of `MathMarkdown`: nothing for empty content, the raw
string when the backend is unavailable, otherwise the block sequence. -/
inductive Rendered where
  | noContent
  | raw (s : String)
  | blocks (bs : List Block)
deriving DecidableEq

/-- The full `MathMarkdown` render including its two early returns. -/
def renderE (katexAvailable : Bool) (k : Oracle) (content : String) :
    Except String Rendered :=
  if content == "" then .ok .noContent
  else if !katexAvailable then .ok (.raw content)
  else (renderBlocksE k content).map .blocks

/-- What the durable `sigma_math_chats` entry looks like at startup: absent,
present and parsed by `JSON.parse` into a session array, or malformed —
`JSON.parse` throws a SyntaxError on malformed input (platform semantics,
for instance on the stored string consisting of one opening brace). -/
inductive StoredSessions where
  | absent
  | parsed (sessions : List ChatSession)
  | malformed
deriving DecidableEq

/-- The `chats` useState initializer of `App`:
`saved ? JSON.parse(saved) : []`, with no try/catch around the parse. -/
def initChats : StoredSessions → Except String (List ChatSession)
  | .absent => .ok []
  | .parsed ss => .ok ss
  | .malformed => .error "SyntaxError"

/-- The `currentChatId` useState initializer of `App`: re-parse the stored
value; `parsed.length > 0 ? parsed[0].id : null`; null when absent. -/
def initCurrentChatId : StoredSessions → Except String (Option String)
  | .absent => .ok none
  | .parsed ss => .ok (ss.head?.map (fun c => c.id))
  | .malformed => .error "SyntaxError"

/-- Store initialization at process start: both initializers in sequence; an
error of either aborts the component render. -/
def initStore (s : StoredSessions) :
    Except String (List ChatSession × Option String) := do
  let cs ← initChats s
  let cur ← initCurrentChatId s
  pure (cs, cur)

/-- Whether a block is a paragraph. -/
def isParagraph : Block → Bool
  | .para _ => true
  | _ => false

/-- A concrete typesetting backend that echoes its input unchanged. -/
def kId : Oracle := fun t _ => .ok t

/-- A concrete typesetting backend that always throws. -/
def kFail : Oracle := fun _ _ => .error "boom"

/-- The math fragment of the block-math scenario input. -/
def c6frag : String := "\\int_0^\\infty \\frac\x7b\\sin x\x7d\x7bx\x7ddx"

/-- The fragment as a character list. -/
def c6fragL : List Char := c6frag.toList

/-- The block-math scenario input: the fragment wrapped in double dollars. -/
def c6input : String := "$$" ++ c6frag ++ "$$"

/-- A concrete session with one message, last modified at time 5. -/
def c9Session : ChatSession :=
  { id := "1", title := "t", messages := [mkUserMessage "q" [] 5],
    createdAt := 5, lastModified := 5 }

/-- A concrete controller state with an in-flight submission for session 1. -/
def c9State : Ctrl :=
  { chats := [c9Session], currentChatId := some "1", inputText := "",
    attachments := [], isTyping := true,
    pending := some { chatId := "1", history := [], text := "q", attachments := [] } }

/-- A concrete idle state with pending text and no active session. -/
def c10State : Ctrl :=
  { chats := [], currentChatId := none, inputText := "hi", attachments := [],
    isTyping := false, pending := none }

/-- A concrete session last modified at time 10. -/
def c3SessionA : ChatSession :=
  { id := "a", title := "A", messages := [], createdAt := 1, lastModified := 10 }

/-- A concrete session last modified at time 5. -/
def c3SessionB : ChatSession :=
  { id := "b", title := "B", messages := [], createdAt := 2, lastModified := 5 }

/-- A concrete two-session state, sorted by last modification, session a active. -/
def c3State : Ctrl :=
  { chats := [c3SessionA, c3SessionB], currentChatId := some "a", inputText := "",
    attachments := [], isTyping := false, pending := none }

/-- The ingestion loop keeps exactly the files within the size bound, in
order, and raises one warning per oversized file. -/
theorem ingestLoop_spec : ∀ fs : List SrcFile,
    ingestLoop fs =
      ((fs.filter fun f => decide (f.size ≤ maxFileSize)).map toAttachment,
       List.replicate
         ((fs.filter fun f => decide (maxFileSize < f.size)).length)
         fileTooLargeText) := by
  intro fs
  induction fs with
  | nil => rfl
  | cons f rest ih =>
    unfold ingestLoop
    rw [ih]
    by_cases h : f.size > maxFileSize
    · have h' : ¬ f.size ≤ maxFileSize := Nat.not_le.mpr h
      simp [h, h', List.replicate_succ]
    · have h' : f.size ≤ maxFileSize := Nat.not_lt.mp h
      simp [h, h']

/-- Claim C8: every oversized attachment (payload above the fixed 10 MiB
bound) is dropped individually, raising one user-visible warning each,
while all files at or under the bound become attachments in order and the
pending input text is untouched — an oversized file never blocks the rest
of the same submission. -/
theorem handleFileChange_size_validation :
    ∀ (st : Ctrl) (fs : List SrcFile),
      (handleFileChange st (some fs)).1.attachments =
        st.attachments ++
          (fs.filter fun f => decide (f.size ≤ maxFileSize)).map toAttachment ∧
      (handleFileChange st (some fs)).2 =
        List.replicate
          ((fs.filter fun f => decide (maxFileSize < f.size)).length)
          fileTooLargeText ∧
      (handleFileChange st (some fs)).1.inputText = st.inputText ∧
      (handleFileChange st (some fs)).1.chats = st.chats := by
  intro st fs
  simp [handleFileChange, ingestLoop_spec]

/-- Claim C2 counterexample: with malformed durable storage the store
initializer propagates the parse exception instead of resetting to the
empty store — initialization is not crash-free. -/
theorem initStore_malformed_crashes :
    (initStore StoredSessions.malformed).isOk = false := rfl

/-- Claim C2 (amended): absent durable storage yields the empty store and a
well-formed stored list is adopted as-is (first session active), but
malformed storage makes initialization throw rather than resetting. -/
theorem initStore_amended :
    initStore StoredSessions.absent = .ok ([], none) ∧
    (∀ ss, initStore (StoredSessions.parsed ss) =
      .ok (ss, ss.head?.map fun c => c.id)) ∧
    (initStore StoredSessions.malformed).isOk = false :=
  ⟨rfl, fun _ => rfl, rfl⟩

/-- Claim C7 counterexample: a reply carrying only the top-level plain-text
field yields that text as the answer but an empty-string reasoning trace,
not an undefined one. -/
theorem decomposeResponse_thinking_counterexample :
    decomposeResponse { parts := some [], text := some "hello" } =
      ("hello", some "") ∧
    (("hello", some "") : String × Option String) ≠ ("hello", none) :=
  ⟨rfl, by decide⟩

/-- Claim C7 (amended): a reply with no truthily-tagged parts and a non-empty
top-level text field decomposes to that text with an empty-string (not
undefined) reasoning trace; and when no usable text exists anywhere the
answer is the fixed apology string, returned as an ordinary value. -/
theorem decomposeResponse_amended :
    (∀ (parts : List ResponsePart) (t : String),
      (∀ p ∈ parts, truthyOpt p.text = false ∧ truthyOpt p.thought = false) →
      t ≠ "" →
      decomposeResponse { parts := some parts, text := some t } = (t, some "")) ∧
    (∀ parts : List ResponsePart,
      (∀ p ∈ parts, truthyOpt p.text = false) →
      (decomposeResponse { parts := some parts, text := none }).1 = apologyText ∧
      (decomposeResponse { parts := some parts, text := some "" }).1 =
        apologyText) := by
  constructor
  · intro parts t hp ht
    have h1 : parts.find? (fun p => truthyOpt p.text) = none :=
      List.find?_eq_none.mpr fun p hm => by simp [(hp p hm).1]
    have h2 : parts.find? (fun p => truthyOpt p.thought) = none :=
      List.find?_eq_none.mpr fun p hm => by simp [(hp p hm).2]
    simp [decomposeResponse, h1, h2, ht]
  · intro parts hp
    have h1 : parts.find? (fun p => truthyOpt p.text) = none :=
      List.find?_eq_none.mpr fun p hm => by simp [hp p hm]
    constructor <;> simp [decomposeResponse, h1]

/-- Witness for the amended claim C7 at concrete replies. -/
theorem decomposeResponse_amended_witness :
    decomposeResponse { parts := some [], text := some "hi" } = ("hi", some "") ∧
    (decomposeResponse { parts := some [], text := none }).1 = apologyText :=
  ⟨decomposeResponse_amended.1 [] "hi" (by simp) (by decide),
   (decomposeResponse_amended.2 [] (by simp)).1⟩

/-- Claim C9: the failure-path fallback append grows the message list of the
target session but leaves its lastModified stamp at its old value (5)
instead of the mutation time (99) — the lastModified invariant is violated
on this mutation. -/
theorem sendMessageFailure_skips_lastModified :
    ((sendMessageFailure c9State 99).chats.map fun c => c.messages.length) = [2] ∧
    ((sendMessageFailure c9State 99).chats.map fun c => c.lastModified) = [5] ∧
    (5 : Nat) ≠ 99 :=
  ⟨rfl, rfl, by decide⟩

/-- Each store operation preserves the liveness of the active session id. -/
theorem activeLive_applyStoreOp (st : Ctrl) (op : StoreOp) (h : ActiveLive st) :
    ActiveLive (applyStoreOp st op) := by
  cases op with
  | create now =>
    intro a ha
    simp only [applyStoreOp, startNewChat] at ha ⊢
    exact ⟨_, List.mem_cons_self _ _, (Option.some_inj.mp ha)⟩
  | delete id =>
    intro a ha
    simp only [applyStoreOp, deleteChat] at ha ⊢
    by_cases hc : st.currentChatId = some id
    · rw [if_pos hc] at ha
      rcases hh : (st.chats.filter fun c => c.id != id).head? with _ | c
      · rw [hh] at ha; simp at ha
      · rw [hh] at ha
        simp only [Option.map_some] at ha
        have hmem : c ∈ st.chats.filter fun c => c.id != id :=
          List.mem_of_mem_head? (by rw [hh]; rfl)
        rw [if_pos hc]
        exact ⟨c, hmem, Option.some_inj.mp ha⟩
    · rw [if_neg hc] at ha
      obtain ⟨c, hcmem, hcid⟩ := h a ha
      have hne : a ≠ id := by
        intro hEq; exact hc (hEq ▸ ha)
      rw [if_neg hc]
      refine ⟨c, List.mem_filter.mpr ⟨hcmem, ?_⟩, hcid⟩
      simp [hcid, hne]

/-- Claim C4: after any finite sequence of createSession / deleteSession
operations starting from the empty store, the active session id is null or
the id of a session present in the store. -/
theorem activeSessionId_never_dangling :
    ∀ ops : List StoreOp, ActiveLive (runStoreOps ops) := by
  have key : ∀ (ops : List StoreOp) (st : Ctrl), ActiveLive st →
      ActiveLive (List.foldl applyStoreOp st ops) := by
    intro ops
    induction ops with
    | nil => exact fun st h => h
    | cons op rest ih =>
      intro st h
      exact ih _ (activeLive_applyStoreOp st op h)
  intro ops
  refine key ops initialCtrl ?_
  intro a ha
  simp [initialCtrl] at ha

/-- Claim C1: while a submission is in flight (the typing flag is set) a
second sendMessage call leaves the controller state unchanged — no user
message is appended and no remote call is issued, whatever session is
current — and completion or failure of the pending call clears the flag. -/
theorem sendMessage_single_flight :
    (∀ (st : Ctrl) (now : Nat), st.isTyping = true → sendMessage st now = st) ∧
    (∀ (st : Ctrl) (p : InFlight) (now : Nat), st.pending = some p →
      (sendMessageFailure st now).isTyping = false) ∧
    (∀ (st : Ctrl) (p : InFlight) (rt rh : String) (now : Nat),
      st.pending = some p → (sendMessageSuccess st rt rh now).isTyping = false) := by
  refine ⟨?_, ?_, ?_⟩
  · intro st now h
    unfold sendMessage
    by_cases hg : ((trimChars st.inputText.toList).isEmpty
        && st.attachments.isEmpty) = true
    · rw [if_pos hg]
    · rw [if_neg hg, if_pos h]
  · intro st p now h
    simp only [sendMessageFailure, h]
  · intro st p rt rh now h
    simp only [sendMessageSuccess, h]

/-- Witness for claim C1 at a concrete in-flight state. -/
theorem sendMessage_single_flight_witness :
    sendMessage c9State 7 = c9State ∧
    (sendMessageFailure c9State 7).isTyping = false ∧
    (sendMessageSuccess c9State "a" "b" 7).isTyping = false :=
  ⟨sendMessage_single_flight.1 c9State 7 rfl,
   sendMessage_single_flight.2.1 c9State _ 7 rfl,
   sendMessage_single_flight.2.2 c9State _ "a" "b" 7 rfl⟩

/-- A string is empty exactly when the first 35 characters are empty. -/
theorem take35_isEmpty_iff (s : String) :
    (s.toList.take 35).isEmpty = true ↔ s = "" := by
  rw [List.isEmpty_iff, List.take_eq_nil_iff]
  constructor
  · rintro (h | h)
    · exact absurd h (by decide)
    · exact String.toList_inj.mp (h.trans String.toList_empty.symm)
  · intro h
    exact Or.inr (h ▸ String.toList_empty)

/-- Claim C10: a submission with non-empty input while no session is active
creates a fresh session — titled with the first 35 characters of the text,
or the multimodal fallback when the text is empty — makes it active and
appends the user message to it. -/
theorem sendMessage_autocreates_session :
    ∀ (st : Ctrl) (now : Nat),
      st.currentChatId = none →
      ((trimChars st.inputText.toList).isEmpty && st.attachments.isEmpty) = false →
      st.isTyping = false →
      (sendMessage st now).currentChatId = some (toString now) ∧
      ∃ c, (sendMessage st now).chats.head? = some c ∧
        c.id = toString now ∧
        c.title = (if st.inputText = "" then "Multimodal Query"
                   else String.mk (st.inputText.toList.take 35)) ∧
        c.messages = [mkUserMessage st.inputText st.attachments now] := by
  intro st now hcur hguard htyp
  have hg' : ¬ (trimChars st.inputText.data = [] ∧ st.attachments = []) := by
    rintro ⟨h1, h2⟩
    simp [h1, h2] at hguard
  by_cases hs : st.inputText = ""
  · have hd : st.inputText.data = [] := hs ▸ rfl
    have hatts : ¬ st.attachments = [] :=
      fun h2 => hg' ⟨by rw [hd]; rfl, h2⟩
    refine ⟨?_, ⟨(⟨toString now, "Multimodal Query",
        [mkUserMessage st.inputText st.attachments now], now, now⟩ : ChatSession),
        ?_, rfl, ?_, rfl⟩⟩
    · simp [sendMessage, hg', hcur, htyp, hd, hatts, trimChars]
    · simp [sendMessage, hg', hcur, htyp, hd, hatts, trimChars]
    · rw [if_pos hs]
  · have hd : ¬ st.inputText.data = [] :=
      fun h => hs (String.toList_inj.mp (h.trans String.toList_empty.symm))
    refine ⟨?_, ⟨(⟨toString now, String.mk (st.inputText.toList.take 35),
        [mkUserMessage st.inputText st.attachments now], now, now⟩ : ChatSession),
        ?_, rfl, ?_, rfl⟩⟩
    · simp [sendMessage, hg', hcur, htyp]
    · simp [sendMessage, hg', hcur, htyp, hd]
    · rw [if_neg hs]

/-- Witness for claim C10 at a concrete idle state with no active session. -/
theorem sendMessage_autocreates_session_witness :
    (sendMessage c10State 3).currentChatId = some (toString 3) ∧
    ∃ c, (sendMessage c10State 3).chats.head? = some c ∧
      c.id = toString 3 ∧
      c.title = (if c10State.inputText = "" then "Multimodal Query"
                 else String.mk (c10State.inputText.toList.take 35)) ∧
      c.messages = [mkUserMessage c10State.inputText c10State.attachments 3] :=
  sendMessage_autocreates_session c10State 3 rfl (by decide) rfl

/-- Claim C3: deleting the active session selects as the new active session
the most-recently-modified remaining one (the store being kept sorted by
last modification, most recent first), or null when none remains; and
deleting a non-existent id leaves the state unchanged. -/
theorem deleteChat_reselects_and_noop :
    (∀ (st : Ctrl) (id : String),
      st.currentChatId = some id →
      SortedByLastModified st.chats →
      ((deleteChat st id).chats = [] → (deleteChat st id).currentChatId = none) ∧
      ((deleteChat st id).chats ≠ [] →
        ∃ c ∈ (deleteChat st id).chats,
          (deleteChat st id).currentChatId = some c.id ∧
          ∀ d ∈ (deleteChat st id).chats, d.lastModified ≤ c.lastModified)) ∧
    (∀ (st : Ctrl) (id : String),
      (∀ c ∈ st.chats, c.id ≠ id) → ActiveLive st → deleteChat st id = st) := by
  constructor
  · intro st id hcur hsort
    have hch : (deleteChat st id).chats = st.chats.filter fun c => c.id != id := by
      unfold deleteChat
      rw [if_pos hcur]
    have hid : (deleteChat st id).currentChatId =
        (st.chats.filter fun c => c.id != id).head?.map fun c => c.id := by
      unfold deleteChat
      rw [if_pos hcur]
    constructor
    · intro hnil
      rw [hch] at hnil
      rw [hid, hnil]
      rfl
    · intro hne
      rw [hch] at hne
      obtain ⟨c, cs, hcons⟩ := List.exists_cons_of_ne_nil hne
      have hsort' : SortedByLastModified (st.chats.filter fun c => c.id != id) :=
        List.Pairwise.filter _ hsort
      rw [hcons] at hsort'
      refine ⟨c, ?_, ?_, ?_⟩
      · rw [hch, hcons]; exact List.mem_cons_self _ _
      · rw [hid, hcons]; rfl
      · intro d hd
        rw [hch, hcons] at hd
        rcases List.mem_cons.mp hd with h | h
        · exact h ▸ le_refl _
        · exact (List.pairwise_cons.mp hsort').1 d h
  · intro st id hno hlive
    have hfilter : (st.chats.filter fun c => c.id != id) = st.chats :=
      List.filter_eq_self.mpr fun c hc => by simpa using hno c hc
    have hcond : ¬ st.currentChatId = some id := by
      intro hc
      obtain ⟨c, hcmem, hcid⟩ := hlive id hc
      exact hno c hcmem hcid
    unfold deleteChat
    rw [if_neg hcond, hfilter]

/-- Witness for claim C3 at a concrete sorted two-session store. -/
theorem deleteChat_reselects_and_noop_witness :
    (((deleteChat c3State "a").chats = [] →
        (deleteChat c3State "a").currentChatId = none) ∧
      ((deleteChat c3State "a").chats ≠ [] →
        ∃ c ∈ (deleteChat c3State "a").chats,
          (deleteChat c3State "a").currentChatId = some c.id ∧
          ∀ d ∈ (deleteChat c3State "a").chats,
            d.lastModified ≤ c.lastModified)) ∧
    deleteChat c3State "zz" = c3State := by
  constructor
  · exact deleteChat_reselects_and_noop.1 c3State "a" rfl
      (by simp [SortedByLastModified, c3State, c3SessionA, c3SessionB])
  · refine deleteChat_reselects_and_noop.2 c3State "zz" (by decide) ?_
    intro a ha
    refine ⟨c3SessionA, by simp [c3State], ?_⟩
    have : some "a" = some a := ha
    simpa [c3SessionA] using (Option.some_inj.mp this)

/-- The try/catch in renderMath always yields a value. -/
theorem renderMathE_isOk (k : Oracle) (t : List Char) (b : Bool) :
    ∃ s, renderMathE k t b = .ok s := by
  unfold renderMathE
  cases k t b with
  | ok s => exact ⟨s, rfl⟩
  | error e => exact ⟨t, rfl⟩

/-- A bind of non-throwing computations does not throw. -/
theorem isOk_bind {α β : Type} (x : Except String α) (f : α → Except String β)
    (hx : x.isOk = true) (hf : ∀ a, (f a).isOk = true) :
    (x >>= f).isOk = true := by
  cases x with
  | ok a => exact hf a
  | error e => simp [Except.isOk, Except.toBool] at hx

/-- Bind on an ok value reduces. -/
theorem ok_bind {α β : Type} (a : α) (f : α → Except String β) :
    ((Except.ok a : Except String α) >>= f) = f a := rfl

/-- The block-math pass never throws, for any backend, fuel and input. -/
theorem blockPassE_isOk (k : Oracle) :
    ∀ (fuel : Nat) (l : List Char), (blockPassE k fuel l).isOk = true := by
  intro fuel
  induction fuel using Nat.strong_induction_on with
  | _ fuel ih =>
    intro l
    unfold blockPassE
    split
    · rfl
    · rfl
    · split
      · refine isOk_bind _ _ ?_ fun r =>
          isOk_bind _ _ (ih _ (by omega) _) fun t => rfl
        obtain ⟨s, hs⟩ := renderMathE_isOk k _ true
        rw [hs]; rfl
      · exact isOk_bind _ _ (ih _ (by omega) _) fun t => rfl
    · exact isOk_bind _ _ (ih _ (by omega) _) fun t => rfl

/-- The inline-math pass never throws, for any backend, fuel and input. -/
theorem inlinePassE_isOk (k : Oracle) :
    ∀ (fuel : Nat) (l : List Char), (inlinePassE k fuel l).isOk = true := by
  intro fuel
  induction fuel using Nat.strong_induction_on with
  | _ fuel ih =>
    intro l
    unfold inlinePassE
    split
    · rfl
    · rfl
    · split
      · split
        · exact isOk_bind _ _ (ih _ (by omega) _) fun t => rfl
        · refine isOk_bind _ _ ?_ fun r =>
            isOk_bind _ _ (ih _ (by omega) _) fun t => rfl
          obtain ⟨s, hs⟩ := renderMathE_isOk k _ false
          rw [hs]; rfl
      · exact isOk_bind _ _ (ih _ (by omega) _) fun t => rfl
    · exact isOk_bind _ _ (ih _ (by omega) _) fun t => rfl

/-- Mapping over a non-throwing computation does not throw. -/
theorem isOk_map {α β : Type} (x : Except String α) (f : α → β)
    (hx : x.isOk = true) : (x.map f).isOk = true := by
  cases x with
  | ok a => rfl
  | error e => simp [Except.isOk, Except.toBool] at hx

/-- The three-pass body never throws. -/
theorem renderBlocksE_isOk (k : Oracle) (content : String) :
    (renderBlocksE k content).isOk = true := by
  unfold renderBlocksE
  exact isOk_bind _ _ (blockPassE_isOk k _ _) fun p1 =>
    isOk_bind _ _ (inlinePassE_isOk k _ _) fun p2 => rfl

/-- The full render never throws. -/
theorem renderE_isOk (avail : Bool) (k : Oracle) (s : String) :
    (renderE avail k s).isOk = true := by
  unfold renderE
  split
  · rfl
  · split
    · rfl
    · exact isOk_map _ _ (renderBlocksE_isOk k s)

/-- The inline pass leaves dollar-free text untouched. -/
theorem inlinePassE_no_dollar (k : Oracle) :
    ∀ (fuel : Nat) (l : List Char), '$' ∉ l → inlinePassE k fuel l = .ok l := by
  intro fuel
  induction fuel using Nat.strong_induction_on with
  | _ fuel ih =>
    intro l h
    unfold inlinePassE
    split
    · rfl
    · rfl
    · exact absurd (List.mem_cons_self _ _) h
    · rename_i f1 l0 fl c rest hx
      rw [ih fl (by omega) rest fun hm => h (List.mem_cons_of_mem _ hm)]
      rfl

/-- The bold replacement leaves asterisk-free text untouched. -/
theorem boldPass_no_star :
    ∀ (fuel : Nat) (l : List Char), '*' ∉ l → boldPass fuel l = l := by
  intro fuel
  induction fuel using Nat.strong_induction_on with
  | _ fuel ih =>
    intro l h
    unfold boldPass
    split
    · rfl
    · rfl
    · exact absurd (List.mem_cons_self _ _) h
    · rename_i f1 l0 fl c rest hx
      rw [ih fl (by omega) rest fun hm => h (List.mem_cons_of_mem _ hm)]

/-- Newline-free text splits into a single line. -/
theorem splitOnNl_no_newline :
    ∀ l : List Char, '\n' ∉ l → splitOnNl l = [l] := by
  intro l
  induction l with
  | nil => intro h; rfl
  | cons c rest ih =>
    intro h
    unfold splitOnNl
    split
    · exact absurd (by assumption : c :: rest = []) (by simp)
    · rename_i rest0 heq
      injection heq with h1 h2
      exact absurd (List.mem_cons.mpr (Or.inl h1.symm)) h
    · rename_i l0 c2 rest2 hxne heq
      injection heq with h1 h2
      subst h1
      subst h2
      rw [ih fun hm => h (List.mem_cons_of_mem _ hm)]

/-- Trimming leaves the display-math wrapper untouched: it starts and ends
with a non-whitespace character. -/
theorem trimChars_div_wrapped (X : List Char) :
    trimChars (divOpenL ++ X ++ divCloseL) = divOpenL ++ X ++ divCloseL := by
  have h1 : divOpenL ++ X ++ divCloseL
      = '<' :: ("div class=\"katex-display-container\">".toList ++ X ++ divCloseL) := rfl
  have h2 : (divOpenL ++ X ++ divCloseL).reverse
      = '>' :: (['v', 'i', 'd', '/', '<'] ++ (divOpenL ++ X).reverse) := by
    rw [List.reverse_append]
    rfl
  unfold trimChars
  rw [h1, List.dropWhile_cons, if_neg (by decide), ← h1, h2, List.dropWhile_cons,
    if_neg (by decide), ← h2, List.reverse_reverse]

/-- The line pass classifies a line consisting of one display-math wrapper as
a paragraph: it is non-blank and matches no list marker. -/
theorem classify_div_wrapped (X : List Char) (hstar : '*' ∉ X) :
    classifyLine (divOpenL ++ X ++ divCloseL) = .para (divOpenL ++ X ++ divCloseL) := by
  have hstar' : '*' ∉ divOpenL ++ X ++ divCloseL := by
    intro hm
    rcases List.mem_append.mp hm with hm | hm
    · rcases List.mem_append.mp hm with hm | hm
      · exact absurd hm (by decide)
      · exact hstar hm
    · exact absurd hm (by decide)
  have h1 : divOpenL ++ X ++ divCloseL
      = '<' :: 'd' :: ("iv class=\"katex-display-container\">".toList ++ X ++ divCloseL) := rfl
  unfold classifyLine
  rw [trimChars_div_wrapped, boldPass_no_star _ _ hstar']
  rw [if_neg ?hul, if_neg ?hol, if_neg ?hbr]
  case hul =>
    rw [h1]
    simp [startsWithPair]
  case hol =>
    rw [h1]
    simp [startsOrderedMarker, startsWithPair, List.takeWhile_cons]
  case hbr =>
    rw [h1]
    simp

/-- Claim C5: the render never throws, for every input string (unmatched
single or double dollars and the empty string included) and every backend;
a fragment whose typesetting throws is replaced by its own raw text; and on
a concrete input whose two math fragments both fail, the raw fragments
appear in place while the surrounding text still renders. -/
theorem render_never_throws_and_fragment_fallback :
    (∀ (avail : Bool) (k : Oracle) (s : String), (renderE avail k s).isOk = true) ∧
    (∀ (k : Oracle) (t : List Char) (b : Bool) (e : String),
      k t b = .error e → renderMathE k t b = .ok t) ∧
    renderBlocksE kFail "$$bad$$ and $x$" =
      .ok [Block.para (divOpenL ++ "bad".toList ++ divCloseL ++ " and x".toList)] := by
  refine ⟨renderE_isOk, ?_, rfl⟩
  intro k t b e h
  unfold renderMathE
  rw [h]

/-- Witness for claim C5 at a throwing backend and concrete inputs. -/
theorem render_never_throws_and_fragment_fallback_witness :
    (renderE true kFail "$").isOk = true ∧
    renderMathE kFail "x".toList true = .ok "x".toList :=
  ⟨render_never_throws_and_fragment_fallback.1 true kFail "$",
   render_never_throws_and_fragment_fallback.2.1 kFail "x".toList true "boom" rfl⟩

/-- Claim C6 counterexample: rendering the standalone block-math input yields
one paragraph block (wrapping the display container), not zero. -/
theorem render_block_math_paragraph_counterexample :
    ((renderBlocksE kId c6input).map fun bs => bs.countP isParagraph) = .ok 1 ∧
    (1 : Nat) ≠ 0 :=
  ⟨rfl, by decide⟩

/-- Claim C6 (amended): for every backend whose typeset html for the fragment
contains no dollar, newline or asterisk, rendering the standalone
block-math input yields exactly one block: a paragraph whose html is
exactly one display-math container wrapping the typeset fragment. -/
theorem render_block_math_amended :
    ∀ (k : Oracle) (html : List Char),
      k c6fragL true = .ok html →
      '$' ∉ html → '\n' ∉ html → '*' ∉ html →
      renderBlocksE k c6input = .ok [Block.para (divOpenL ++ html ++ divCloseL)] := by
  intro k html hk hdollar hnl hstar
  have hrm : renderMathE k c6fragL true = .ok html := by
    unfold renderMathE
    rw [hk]
  have h0 : blockPassE k (String.toList c6input).length (String.toList c6input)
      = renderMathE k c6fragL true >>= fun r =>
          blockPassE k 35 [] >>= fun tail =>
            pure (divOpenL ++ r ++ divCloseL ++ tail) := rfl
  have hb : blockPassE k (String.toList c6input).length (String.toList c6input)
      = .ok (divOpenL ++ html ++ divCloseL) := by
    rw [h0, hrm, ok_bind,
      show blockPassE k 35 [] = (.ok [] : Except String (List Char)) from rfl,
      ok_bind, List.append_nil]
    rfl
  have hdollar' : '$' ∉ divOpenL ++ html ++ divCloseL := by
    intro hm
    rcases List.mem_append.mp hm with hm | hm
    · rcases List.mem_append.mp hm with hm | hm
      · exact absurd hm (by decide)
      · exact hdollar hm
    · exact absurd hm (by decide)
  have hnl' : ('\n') ∉ divOpenL ++ html ++ divCloseL := by
    intro hm
    rcases List.mem_append.mp hm with hm | hm
    · rcases List.mem_append.mp hm with hm | hm
      · exact absurd hm (by decide)
      · exact hnl hm
    · exact absurd hm (by decide)
  simp only [renderBlocksE]
  rw [hb]
  simp only [ok_bind]
  rw [inlinePassE_no_dollar k _ _ hdollar']
  simp only [ok_bind]
  rw [splitOnNl_no_newline _ hnl']
  rw [List.map_cons, List.map_nil, classify_div_wrapped html hstar]
  rfl

/-- Witness for the amended claim C6 at the echo backend. -/
theorem render_block_math_amended_witness :
    renderBlocksE kId c6input = .ok [Block.para (divOpenL ++ c6fragL ++ divCloseL)] :=
  render_block_math_amended kId c6fragL rfl (by decide) (by decide) (by decide)
